import Mathlib

/-!
Verification of the AI-composer core of the `producify-pro` repository.

The module under study is the TypeScript service embedded in the repository
(symbols `parseTimeToSeconds`, `extractMidiSections`, `midiToTextRepresentation`,
`parseAIResponseToMidi`, `composeWithAI`).  The development below is a shallow
embedding of that code:

* JSON values produced by `JSON.parse` are modelled by the inductive `JVal`;
  the result of `JSON.parse` on the client's response text is passed in as an
  `Option JVal` (`none` models a string that does not parse as JSON at all,
  in which case `JSON.parse` throws and the surrounding `try`/`catch` fires).
* JavaScript numbers are modelled as exact rationals (`ℚ`); `parseInt`/
  `parseFloat` are embedded exactly on finite decimal literals (`NaN` is
  modelled as `Option.none`; the `Infinity` literal, irrelevant to every
  claim, is not modelled and also maps to `none`).
* MIDI documents (`@tonejs/midi`) are modelled by the structures `Note`,
  `Track`, `Midi`; `addTrack`/`addNote` append, following the document model
  of the design (ordered sequence of notes in insertion order).  The note
  fields `duration` and `velocity` are kept as raw `JVal`s because the AI
  response parser passes any truthy value through unchanged.
* JavaScript property access on `null` throws a `TypeError`; this is modelled
  by `jsGet` returning `Except Unit _`, and the parser's `try`/`catch` is
  modelled by threading an `aborted` flag that keeps the state mutated so far.
* File I/O, the Prisma job store, prompt strings and the OpenAI transport are
  external collaborators: `composeWithAI` receives the parsed source document
  directly and an oracle `client : ℕ → Option JVal` giving the (JSON-parsed)
  response of the n-th generative call; each performed call is recorded as a
  `Call` (section label, resolved instrument list, and the extracted
  sub-document from which the prompt summary is rendered).
-/

namespace Producify

/-- JSON values as produced by `JSON.parse`: `null`, booleans, (finite)
numbers, strings, arrays, and objects.  Objects coming from `JSON.parse`
have unique keys (later duplicates overwrite earlier ones during parsing). -/
inductive JVal where
  | null
  | bool (b : Bool)
  | num (q : ℚ)
  | str (s : String)
  | arr (elems : List JVal)
  | obj (fields : List (String × JVal))

/-- Truthiness of a JavaScript value; `none` stands for `undefined`.
Falsy values are `undefined`, `null`, `false`, `0`, and the empty string
(`NaN` cannot occur in `JSON.parse` output); arrays and objects are truthy. -/
def jsTruthy : Option JVal → Bool
  | none => false
  | some JVal.null => false
  | some (JVal.bool b) => b
  | some (JVal.num q) => if q = 0 then false else true
  | some (JVal.str s) => if s = "" then false else true
  | some (JVal.arr _) => true
  | some (JVal.obj _) => true

/-- The JavaScript `x || d` idiom: the left value if truthy, otherwise `d`. -/
def jsOr (v : Option JVal) (d : JVal) : JVal :=
  match v with
  | some x => if jsTruthy (some x) then x else d
  | none => d

/-- First-match field lookup in a JSON object (keys are unique after
`JSON.parse`). -/
def lookupField (fields : List (String × JVal)) (k : String) : Option JVal :=
  match fields with
  | [] => none
  | (k', v) :: rest => if k' = k then some v else lookupField rest k

/-- JavaScript property access `v.k`: a `TypeError` (modelled as
`Except.error ()`) on `null`, the field value on objects, and `undefined`
(`none`) on every other value (the fields accessed by this code are not
built-in properties of primitives or arrays). -/
def jsGet : JVal → String → Except Unit (Option JVal)
  | JVal.null, _ => Except.error ()
  | JVal.obj fs, k => Except.ok (lookupField fs k)
  | _, _ => Except.ok none

/-! ## JavaScript number parsing (`parseInt(_, 10)` and `parseFloat`)

Both functions skip leading whitespace, read an optional sign, and then the
longest numeric prefix, ignoring any trailing junk; they return `NaN`
(modelled `none`) when no digit is found. -/

/-- Whitespace characters skipped by `parseInt`/`parseFloat`. -/
def isWsChar (c : Char) : Bool :=
  c = ' ' ∨ c = '\t' ∨ c = '\n' ∨ c = '\r' ∨ c = '\x0b' ∨ c = '\x0c'

/-- Decimal digit test. -/
def isDigit (c : Char) : Bool := '0' ≤ c ∧ c ≤ '9'

/-- Drops the leading whitespace of a character list. -/
def skipWs : List Char → List Char
  | [] => []
  | c :: cs => if isWsChar c then skipWs cs else c :: cs

/-- Reads an optional leading sign; returns (negative?, remainder). -/
def readSign (cs : List Char) : Bool × List Char :=
  match cs with
  | [] => (false, [])
  | c :: rest =>
    if c = '-' then (true, rest)
    else if c = '+' then (false, rest)
    else (false, c :: rest)

/-- Reads the longest prefix of decimal digits; returns (digits, remainder). -/
def readDigits : List Char → List Char × List Char
  | [] => ([], [])
  | c :: cs =>
    if isDigit c then
      let p := readDigits cs
      (c :: p.1, p.2)
    else ([], c :: cs)

/-- Numeric value of a list of decimal digit characters. -/
def natOfDigits (ds : List Char) : ℕ :=
  ds.foldl (fun a c => 10 * a + (c.toNat - 48)) 0

/-- Reads an optional exponent part `(e|E)(+|-)?digits`; consumed only when at
least one digit follows, otherwise nothing is consumed (JavaScript takes the
longest valid literal prefix). -/
def readExp (cs : List Char) : ℤ × List Char :=
  match cs with
  | [] => (0, [])
  | c :: rest =>
    if c = 'e' ∨ c = 'E' then
      let sg := readSign rest
      let ds := readDigits sg.2
      if ds.1 = [] then (0, c :: rest)
      else ((if sg.1 then -(natOfDigits ds.1 : ℤ) else (natOfDigits ds.1 : ℤ)), ds.2)
    else (0, c :: rest)

/-- Reads an optional fractional part `. digits` (the dot alone is also
consumed, as in the literal `12.`); returns (fraction digits, remainder). -/
def readFrac (cs : List Char) : List Char × List Char :=
  match cs with
  | [] => ([], [])
  | c :: rest => if c = '.' then readDigits rest else ([], c :: rest)

/-- Reads an unsigned decimal literal `digits [. digits] [exp]` (at least one
digit in the integer or fractional part); exact rational value. -/
def readFloatBody (cs : List Char) : Option (ℚ × List Char) :=
  let ipr := readDigits cs
  let fpr := readFrac ipr.2
  if ipr.1 = [] ∧ fpr.1 = [] then none
  else
    let mant : ℚ := (natOfDigits ipr.1 : ℚ) + (natOfDigits fpr.1 : ℚ) / (10 : ℚ) ^ fpr.1.length
    let er := readExp fpr.2
    some (mant * (10 : ℚ) ^ er.1, er.2)

/-- JavaScript `parseFloat` on finite decimal literals: `none` models `NaN`. -/
def jsParseFloat (cs : List Char) : Option ℚ :=
  let ws := skipWs cs
  let sg := readSign ws
  match readFloatBody sg.2 with
  | none => none
  | some body => some (if sg.1 then -body.1 else body.1)

/-- JavaScript `parseInt(_, 10)`: `none` models `NaN`. -/
def jsParseInt (cs : List Char) : Option ℤ :=
  let ws := skipWs cs
  let sg := readSign ws
  let ds := readDigits sg.2
  if ds.1 = [] then none
  else some (if sg.1 then -(natOfDigits ds.1 : ℤ) else (natOfDigits ds.1 : ℤ))

/-- JavaScript `String.prototype.split(':')` on character lists. -/
def splitOnColon : List Char → List (List Char)
  | [] => [[]]
  | c :: cs =>
    if c = ':' then [] :: splitOnColon cs
    else
      match splitOnColon cs with
      | [] => [[c]]
      | p :: ps => (c :: p) :: ps

/-- Embedding of the source function `parseTimeToSeconds` (AI composer
module): empty string is falsy and yields 0; with a colon present the string
is split on colons, `parseInt(parts[0], 10) || 0` gives whole minutes and
`parseFloat(parts[1]) || 0` gives seconds; otherwise `parseFloat(timeStr) || 0`.
Note that `x || 0` maps `NaN` (our `none`) to 0 and leaves the value of any
parsed number unchanged (a parsed 0 is falsy but `0 || 0` is still 0). -/
def parseTimeToSeconds (timeStr : String) : ℚ :=
  if timeStr = "" then 0
  else
    let cs := timeStr.data
    if ':' ∈ cs then
      let parts := splitOnColon cs
      let minutes : ℤ := (jsParseInt (parts.getD 0 [])).getD 0
      let seconds : ℚ := (jsParseFloat (parts.getD 1 [])).getD 0
      (minutes : ℚ) * 60 + seconds
    else (jsParseFloat cs).getD 0

/-- Statement of the specification's time-parsing rule, written from the
claim's words: if a colon is present, 60 times the integer value of the part
left of the (first) colon plus the decimal value of the part right of it,
each unparsable part contributing 0; otherwise the decimal value of the whole
string, with 0 for an unparsable or empty string. -/
def parseTimeClaim (timeStr : String) : ℚ :=
  let cs := timeStr.data
  if ':' ∈ cs then
    let left := cs.takeWhile (fun c => c ≠ ':')
    let right := (cs.dropWhile (fun c => c ≠ ':')).tail
    60 * (((jsParseInt left).getD 0 : ℤ) : ℚ) + (jsParseFloat right).getD 0
  else (jsParseFloat cs).getD 0

/-! ## MIDI document model

Mirrors the slice of `@tonejs/midi` used by the composer module.  `duration`
and `velocity` of a note are raw `JVal`s: `parseAIResponseToMidi` writes
`note.duration || 0.5` into a new note without any further check, so any
truthy JSON value can end up there; notes of a document parsed from a MIDI
file always carry `JVal.num` in these fields. -/

structure Note where
  midi : ℚ
  time : ℚ
  duration : JVal
  velocity : JVal

structure Track where
  name : JVal
  instrument : String
  notes : List Note

structure Midi where
  tempo : Option ℚ
  timeSig : Option (ℚ × ℚ)
  tracks : List Track

/-- Numeric reading of a `JVal` with a default, used for the tonejs duration
computation (notes of file-parsed documents are always numeric there). -/
def JVal.numOr (v : JVal) (d : ℚ) : ℚ :=
  match v with
  | JVal.num q => q
  | _ => d

/-- Total duration of a document: the maximal note end time (tonejs
`Midi.duration`), 0 for a document with no notes. -/
def Midi.duration (m : Midi) : ℚ :=
  m.tracks.foldl
    (fun a tr => tr.notes.foldl (fun b n => max b (n.time + n.duration.numOr 0)) a) 0

/-- Fresh document, as built by `new Midi()`: no tempo event, no time
signature, no tracks. -/
def emptyMidi : Midi := { tempo := none, timeSig := none, tracks := [] }

/-! ## Section configurations and requests (types module of the repository) -/

inductive Mode where
  | all
  | none
  | manual
deriving DecidableEq

structure SectionConfig where
  id : String
  name : String
  label : String
  startTime : String
  endTime : String
  mode : Mode
  instruments : List String

structure CompositionRequest where
  genre : String
  subgenre : String
  instruments : List String
  sections : List SectionConfig

/-! ## Time-range extraction (`extractMidiSections`) -/

/-- Body of the per-track note-copy loop of `extractMidiSections`: copies the
notes whose start time `t` satisfies `startTime ≤ t < endTime`, re-zeroed by
subtracting `startTime`; name and instrument are copied verbatim. -/
def extractTrack (startTime endTime : ℚ) (tr : Track) : Track :=
  { name := tr.name
  , instrument := tr.instrument
  , notes :=
      tr.notes.foldl
        (fun acc n =>
          if startTime ≤ n.time ∧ n.time < endTime then
            acc ++ [{ midi := n.midi, time := n.time - startTime
                    , duration := n.duration, velocity := n.velocity }]
          else acc) [] }

/-- The `tempos[0]?.bpm || 120` idiom (`setTempo` argument): 120 when the
source document has no tempo event or a falsy (0) bpm. -/
def tempoOr120 (t : Option ℚ) : ℚ :=
  match t with
  | some b => if b = 0 then 120 else b
  | none => 120

/-- Per-section sub-document construction of `extractMidiSections`: new
document with the source tempo (default 120) and first time signature copied,
and every track filtered and re-zeroed to the window. -/
def extractSection (doc : Midi) (startTime endTime : ℚ) : Midi :=
  { tempo := some (tempoOr120 doc.tempo)
  , timeSig := doc.timeSig
  , tracks := doc.tracks.map (extractTrack startTime endTime) }

/-- One work item of the orchestrator loop (an element of the array returned
by `extractMidiSections`).  The source field `section` is a Lean keyword and
is called `sec` here. -/
structure SectionUnit where
  sec : SectionConfig
  midi : Midi
  startTime : ℚ
  endTime : ℚ

/-- Embedding of `extractMidiSections`: parses each section's time strings
(`endTime` falls back to the source document duration when the string is
empty, i.e. falsy) and extracts the corresponding sub-document.  The file
read is abstracted: the parsed source document is passed as `doc`. -/
def extractMidiSections (doc : Midi) (sections : List SectionConfig) : List SectionUnit :=
  sections.map (fun s =>
    let startTime := parseTimeToSeconds s.startTime
    let endTime := if s.endTime ≠ "" then parseTimeToSeconds s.endTime else doc.duration
    { sec := s, midi := extractSection doc startTime endTime
    , startTime := startTime, endTime := endTime })

/-! ## Response parsing (`parseAIResponseToMidi`)

The source wraps everything in `try { ... } catch { log }` and returns the
(in-place mutated) `baseMidi` in all cases.  Inside the `try`, the only
possible exception is a `TypeError` from a property access on `null`
(a `null` instrument entry at `inst.notes`, or a `null` note entry at
`note.midi`); such an exception aborts the remaining entries but keeps every
track and note already added.  The aborted flag models that propagation. -/

/-- Body of the note loop: admit the entry only if `typeof note.midi` and
`typeof note.time` are both `'number'`; `duration`/`velocity` go through the
`|| 0.5` / `|| 0.8` defaults.  `Except.error` models a thrown `TypeError`. -/
def procNote (note : JVal) : Except Unit (Option Note) :=
  match jsGet note "midi" with
  | Except.error e => Except.error e
  | Except.ok m =>
    match m with
    | some (JVal.num mq) =>
      match jsGet note "time" with
      | Except.error e => Except.error e
      | Except.ok t =>
        match t with
        | some (JVal.num tq) =>
          match jsGet note "duration", jsGet note "velocity" with
          | Except.ok d, Except.ok v =>
            Except.ok (some { midi := mq, time := tq
                            , duration := jsOr d (JVal.num (1/2))
                            , velocity := jsOr v (JVal.num (4/5)) })
          | Except.error e, _ => Except.error e
          | _, Except.error e => Except.error e
        | _ => Except.ok none
    | _ => Except.ok none

/-- The `inst.notes.forEach` loop: notes accumulate on the freshly added
track; a thrown `TypeError` (second component `true`) stops the loop keeping
the notes admitted so far. -/
def procNotes : List JVal → List Note → List Note × Bool
  | [], acc => (acc, false)
  | n :: rest, acc =>
    match procNote n with
    | Except.error _ => (acc, true)
    | Except.ok Option.none => procNotes rest acc
    | Except.ok (some note) => procNotes rest (acc ++ [note])

/-- Body of the instruments loop: `inst.notes && Array.isArray(inst.notes)`
holds exactly when the field is an array (arrays are always truthy); then a
track named `inst.name || 'AI Generated'` is added to the base document and
the notes are processed.  The flag is `true` when a `TypeError` was thrown
(on `inst.notes` for a `null` entry, or inside the note loop). -/
def procInst (m : Midi) (inst : JVal) : Midi × Bool :=
  match jsGet inst "notes" with
  | Except.error _ => (m, true)
  | Except.ok notesV =>
    match notesV with
    | some (JVal.arr noteList) =>
      match jsGet inst "name" with
      | Except.error _ => (m, true)
      | Except.ok nameV =>
        let pr := procNotes noteList []
        ({ m with tracks := m.tracks ++
            [{ name := jsOr nameV (JVal.str "AI Generated")
             , instrument := "", notes := pr.1 }] }, pr.2)
    | _ => (m, false)

/-- The `response.instruments.forEach` loop; a thrown exception propagates
past the remaining instrument entries (it is caught outside the loop). -/
def procInsts : List JVal → Midi → Midi
  | [], m => m
  | inst :: rest, m =>
    let pr := procInst m inst
    if pr.2 then pr.1 else procInsts rest pr.1

/-- Embedding of `parseAIResponseToMidi`.  The argument `parsed` is the
result of `JSON.parse(responseText)`: `none` when the text is not JSON at all
(the throw is caught, logged, and `baseMidi` is returned untouched).  When
the top level parses, `response.instruments && Array.isArray(...)` guards the
instrument loop; accessing `.instruments` on a `null` response throws and is
likewise caught. -/
def parseAIResponseToMidi (parsed : Option JVal) (baseMidi : Midi) : Midi :=
  match parsed with
  | none => baseMidi
  | some response =>
    match jsGet response "instruments" with
    | Except.error _ => baseMidi
    | Except.ok instV =>
      match instV with
      | some (JVal.arr insts) => procInsts insts baseMidi
      | _ => baseMidi

/-! ## Orchestration (`composeWithAI`)

Analysis, text summarization and prompt building feed only the prompt strings
of the external generative call; the call boundary is abstracted by recording
each performed call as a `Call` holding the section label, the resolved
instrument list and the extracted sub-document the summary is rendered from,
and by the oracle `client : ℕ → Option JVal` giving the JSON-parse result of
the n-th call's response text. -/

structure Call where
  label : String
  instruments : List String
  doc : Midi

/-- Per-unit instrument resolution of the orchestrator loop, verbatim from
the source: `if (section.mode === 'none' || section.instruments.length === 0)
continue;` then `mode === 'all' ? request.instruments : section.instruments`,
then `if (instrumentsForSection.length === 0) continue;`.  `none` means the
unit is skipped with no generative call. -/
def resolveInstruments (reqInstruments : List String) (s : SectionConfig) :
    Option (List String) :=
  if s.mode = Mode.none ∨ s.instruments = [] then none
  else
    let insts := if s.mode = Mode.all then reqInstruments else s.instruments
    if insts = [] then none else some insts

/-- Note-copy inner loop of the merging step: every note of the section
result is appended at `time + startTime`. -/
def mergeTrack (startTime : ℚ) (tr : Track) : Track :=
  { name := tr.name
  , instrument := tr.instrument
  , notes :=
      tr.notes.foldl
        (fun ns n =>
          ns ++ [{ midi := n.midi, time := n.time + startTime
                 , duration := n.duration, velocity := n.velocity }]) [] }

/-- Merging step of the orchestrator: each track of the parsed section result
is appended to the shared output document with all note times offset by the
section start. -/
def mergeSectionResult (out : Midi) (startTime : ℚ) (res : Midi) : Midi :=
  res.tracks.foldl
    (fun acc tr => { acc with tracks := acc.tracks ++ [mergeTrack startTime tr] }) out

/-- The sequential per-section loop of `composeWithAI`: skip by instrument
resolution, otherwise summarize/prompt/call (recorded as a `Call`), parse the
response into a fresh `new Midi()`, and offset-merge it into the shared
output document. -/
def runSections (client : ℕ → Option JVal) (reqInstruments : List String) :
    List SectionUnit → Midi → List Call → Midi × List Call
  | [], out, calls => (out, calls)
  | u :: rest, out, calls =>
    match resolveInstruments reqInstruments u.sec with
    | Option.none => runSections client reqInstruments rest out calls
    | some insts =>
      let response := client calls.length
      let sectionResult := parseAIResponseToMidi response emptyMidi
      let out' := mergeSectionResult out u.startTime sectionResult
      runSections client reqInstruments rest out' (calls ++ [⟨u.sec.label, insts, u.midi⟩])

/-- A section carries a time window when its start or end time string is
truthy (non-empty): the filter building `sectionsWithTimes`. -/
def hasTime (s : SectionConfig) : Bool :=
  s.startTime ≠ "" ∨ s.endTime ≠ ""

/-- Embedding of `composeWithAI`.  A falsy `OPENAI_API_KEY` (absent or empty)
throws before anything else.  With time-bounded sections present, exactly the
filtered sections are extracted and looped over; otherwise a single
"Full Composition" call is made over the whole piece and its response parsed
directly into the output document.  Final serialization to bytes is outside
the model; the accumulated output document and the performed calls are
returned. -/
def composeWithAI (client : ℕ → Option JVal) (apiKey : Option String)
    (req : CompositionRequest) (sourceDoc : Midi) :
    Except String (Midi × List Call) :=
  if apiKey.getD "" = "" then
    Except.error "OPENAI_API_KEY environment variable is not set"
  else
    let outputMidi := sourceDoc
    let sectionsWithTimes := req.sections.filter hasTime
    if sectionsWithTimes.length > 0 then
      let units := extractMidiSections sourceDoc sectionsWithTimes
      Except.ok (runSections client req.instruments units outputMidi [])
    else
      Except.ok (parseAIResponseToMidi (client 0) outputMidi
                , [⟨"Full Composition", req.instruments, outputMidi⟩])

/-! ## Concrete sample inputs used by witnesses and counterexamples -/

/-- Response with a single note entry whose midi value 200 lies outside
the legal pitch range [0,127]. -/
def respC1 : JVal :=
  JVal.obj [("instruments", JVal.arr
    [JVal.obj [("name", JVal.str "X"), ("notes", JVal.arr
      [JVal.obj [("midi", JVal.num 200), ("time", JVal.num 0)]])]])]

/-- Response with a single note entry carrying a valid duration 2 and the
boundary velocity 0.0. -/
def respC4 : JVal :=
  JVal.obj [("instruments", JVal.arr
    [JVal.obj [("name", JVal.str "X"), ("notes", JVal.arr
      [JVal.obj [("midi", JVal.num 60), ("time", JVal.num 0)
                , ("duration", JVal.num 2), ("velocity", JVal.num 0)]])]])]

/-- Response whose only note starts at time 2 (seconds within its section). -/
def respC7 : JVal :=
  JVal.obj [("instruments", JVal.arr
    [JVal.obj [("name", JVal.str "Lead"), ("notes", JVal.arr
      [JVal.obj [("midi", JVal.num 60), ("time", JVal.num 2)]])]])]

/-- Request with one section spanning 30 to 50 seconds, mode `all`. -/
def reqC7 : CompositionRequest :=
  { genre := "", subgenre := "", instruments := ["bass"]
  , sections := [{ id := "s1", name := "Verse", label := "Verse"
                 , startTime := "30", endTime := "50"
                 , mode := Mode.all, instruments := ["bass"] }] }

/-- Time-bounded section in mode `all` with a non-empty own instrument
list: processed by the orchestrator loop. -/
def secC2 : SectionConfig :=
  { id := "s1", name := "Intro", label := "Intro", startTime := "0"
  , endTime := "10", mode := Mode.all, instruments := ["bass"] }

/-- Request whose only section is `secC2`; used with an empty source
document, so the extracted window holds no notes. -/
def reqC2 : CompositionRequest :=
  { genre := "", subgenre := "", instruments := ["bass"], sections := [secC2] }

/-- Unit produced for `secC2` over the empty source document. -/
def unitC2 : SectionUnit :=
  { sec := secC2, midi := extractSection emptyMidi 0 10, startTime := 0, endTime := 10 }

/-- Time-bounded section in mode `all` whose own instrument list is empty. -/
def secC3 : SectionConfig :=
  { id := "s1", name := "Intro", label := "Intro", startTime := "0"
  , endTime := "10", mode := Mode.all, instruments := [] }

/-- Request with a non-empty instrument list whose only section is `secC3`. -/
def reqC3 : CompositionRequest :=
  { genre := "", subgenre := "", instruments := ["bass"], sections := [secC3] }

/-- Section in mode `none` (with a non-empty own list). -/
def secC3none : SectionConfig :=
  { id := "n", name := "A", label := "A", startTime := "0", endTime := "1"
  , mode := Mode.none, instruments := ["drums"] }

/-- Section in mode `manual` with explicit list `["drums"]`. -/
def secC3manual : SectionConfig :=
  { id := "m", name := "B", label := "B", startTime := "0", endTime := "1"
  , mode := Mode.manual, instruments := ["drums"] }

/-- Section in mode `manual` with an empty explicit list. -/
def secC3manualEmpty : SectionConfig :=
  { id := "e", name := "C", label := "C", startTime := "0", endTime := "1"
  , mode := Mode.manual, instruments := [] }

/-- Section in mode `all` with a non-empty own list. -/
def secC3all : SectionConfig :=
  { id := "a", name := "D", label := "D", startTime := "0", endTime := "1"
  , mode := Mode.all, instruments := ["drums"] }

/-- Source document with one piano track holding notes at 0, 2 and 5
seconds. -/
def docC5 : Midi :=
  { tempo := some 100, timeSig := some (4, 4)
  , tracks := [{ name := JVal.str "Piano", instrument := "piano"
               , notes := [ { midi := 60, time := 0, duration := JVal.num 1, velocity := JVal.num 1 }
                          , { midi := 62, time := 2, duration := JVal.num 1, velocity := JVal.num 1 }
                          , { midi := 64, time := 5, duration := JVal.num 1, velocity := JVal.num 1 } ] }] }

/-- Response whose first instrument has a `null` note entry followed by a
valid one, and whose second instrument is entirely valid. -/
def respC8 : JVal :=
  JVal.obj [("instruments", JVal.arr
    [ JVal.obj [("name", JVal.str "X"), ("notes", JVal.arr
        [ JVal.null
        , JVal.obj [("midi", JVal.num 60), ("time", JVal.num 0)]])]
    , JVal.obj [("name", JVal.str "Y"), ("notes", JVal.arr
        [ JVal.obj [("midi", JVal.num 61), ("time", JVal.num 1)]])]])]

/-- Note entry with a non-numeric (string) midi field. -/
def badNoteC8 : JVal :=
  JVal.obj [("midi", JVal.str "bad"), ("time", JVal.num 0)]

/-- Valid note entry at pitch 60, time 1. -/
def goodNoteC8 : JVal :=
  JVal.obj [("midi", JVal.num 60), ("time", JVal.num 1)]

/-- Note-entry list of the merger-leniency example: one note with a
non-numeric midi field followed by nine valid notes. -/
def notesC8 : List JVal :=
  badNoteC8 ::
    (List.range 9).map (fun i =>
      JVal.obj [("midi", JVal.num (60 + i)), ("time", JVal.num i)])

/-- Response holding the ten-entry note list `notesC8` on one instrument. -/
def respC8nine : JVal :=
  JVal.obj [("instruments", JVal.arr
    [JVal.obj [("name", JVal.str "B"), ("notes", JVal.arr notesC8)]])]

/-- Time-bounded section (mode `none`). -/
def secTimedC10 : SectionConfig :=
  { id := "s1", name := "Intro", label := "Intro", startTime := "5"
  , endTime := "", mode := Mode.none, instruments := [] }

/-- Section with both time strings empty, in mode `all` with instruments. -/
def secUntimedC10 : SectionConfig :=
  { id := "s2", name := "Verse", label := "Verse", startTime := ""
  , endTime := "", mode := Mode.all, instruments := ["bass"] }

/-- Request holding one timed and one untimed section. -/
def reqC10 : CompositionRequest :=
  { genre := "", subgenre := "", instruments := ["bass"]
  , sections := [secTimedC10, secUntimedC10] }

/-! ## Helper lemmas

The colon acts as a barrier for every reader of the number-parsing pipeline:
no whitespace, sign, digit, dot or exponent marker matches it, so appending
`':' :: r` to the input leaves the parsed value unchanged and lands in the
remainder. -/

theorem skipWs_colon (l r : List Char) :
    skipWs (l ++ ':' :: r) = skipWs l ++ ':' :: r := by
  induction l with
  | nil => simp [skipWs, isWsChar]
  | cons c t ih =>
    by_cases h : isWsChar c = true
    · simp [skipWs, h, ih]
    · simp [skipWs, h]

theorem readSign_colon (l r : List Char) :
    readSign (l ++ ':' :: r) = ((readSign l).1, (readSign l).2 ++ ':' :: r) := by
  cases l with
  | nil => simp [readSign]
  | cons c t =>
    by_cases h1 : c = '-'
    · simp [readSign, h1]
    · by_cases h2 : c = '+'
      · simp [readSign, h1, h2]
      · simp [readSign, h1, h2]

theorem readDigits_colon (l r : List Char) :
    readDigits (l ++ ':' :: r) = ((readDigits l).1, (readDigits l).2 ++ ':' :: r) := by
  induction l with
  | nil => simp [readDigits, isDigit]
  | cons c t ih =>
    by_cases h : isDigit c = true
    · simp [readDigits, h, ih]
    · simp [readDigits, h]

theorem readExp_colon (l r : List Char) :
    readExp (l ++ ':' :: r) = ((readExp l).1, (readExp l).2 ++ ':' :: r) := by
  cases l with
  | nil => simp [readExp]
  | cons c t =>
    by_cases h : (c = 'e' ∨ c = 'E')
    · simp only [List.cons_append, readExp, if_pos h]
      rw [readSign_colon]
      rw [readDigits_colon]
      by_cases hd : (readDigits (readSign t).2).1 = []
      · simp [hd]
      · simp [hd]
    · simp [readExp, h]

theorem readFrac_colon (l r : List Char) :
    readFrac (l ++ ':' :: r) = ((readFrac l).1, (readFrac l).2 ++ ':' :: r) := by
  cases l with
  | nil => simp [readFrac]
  | cons c t =>
    by_cases h : c = '.'
    · simp [readFrac, h, readDigits_colon]
    · simp [readFrac, h]

theorem readFloatBody_colon (l r : List Char) :
    readFloatBody (l ++ ':' :: r) =
      (readFloatBody l).map (fun p => (p.1, p.2 ++ ':' :: r)) := by
  unfold readFloatBody
  rw [readDigits_colon]
  dsimp only
  rw [readFrac_colon, readExp_colon]
  by_cases h0 : (readDigits l).1 = [] ∧ (readFrac (readDigits l).2).1 = []
  · simp [h0]
  · simp [h0]

theorem jsParseFloat_colon (l r : List Char) :
    jsParseFloat (l ++ ':' :: r) = jsParseFloat l := by
  unfold jsParseFloat
  rw [skipWs_colon]
  dsimp only
  rw [readSign_colon]
  dsimp only
  rw [readFloatBody_colon]
  cases readFloatBody (readSign (skipWs l)).2 with
  | none => simp
  | some body => simp

theorem splitOnColon_ne_nil (cs : List Char) : splitOnColon cs ≠ [] := by
  induction cs with
  | nil => simp [splitOnColon]
  | cons c t ih =>
    by_cases h : c = ':'
    · simp [splitOnColon, h]
    · simp only [splitOnColon, if_neg h]
      rcases he : splitOnColon t with _ | ⟨p, ps⟩
      · exact absurd he ih
      · simp

theorem splitOnColon_head (cs : List Char) :
    (splitOnColon cs).getD 0 [] = cs.takeWhile (fun c => c ≠ ':') := by
  induction cs with
  | nil => simp [splitOnColon]
  | cons c t ih =>
    by_cases h : c = ':'
    · simp [splitOnColon, h, List.takeWhile_cons]
    · simp only [splitOnColon, if_neg h]
      rcases he : splitOnColon t with _ | ⟨p, ps⟩
      · exact absurd he (splitOnColon_ne_nil t)
      · rw [he] at ih
        simp only [List.getD_cons_zero] at ih
        simp [List.takeWhile_cons, h, ih]

theorem splitOnColon_structure (cs : List Char) (h : ':' ∈ cs) :
    splitOnColon cs =
      cs.takeWhile (fun c => c ≠ ':') ::
        splitOnColon ((cs.dropWhile (fun c => c ≠ ':')).tail) := by
  induction cs with
  | nil => simp at h
  | cons c t ih =>
    by_cases hc : c = ':'
    · simp [splitOnColon, hc, List.takeWhile_cons, List.dropWhile_cons]
    · have ht : ':' ∈ t := by
        rcases List.mem_cons.mp h with h1 | h2
        · exact absurd h1.symm hc
        · exact h2
      simp only [splitOnColon, if_neg hc]
      rw [ih ht]
      simp [List.takeWhile_cons, List.dropWhile_cons, hc]

theorem dropWhile_colon_mem (cs : List Char) (h : ':' ∈ cs) :
    ∃ t, cs.dropWhile (fun c => c ≠ ':') = ':' :: t := by
  induction cs with
  | nil => simp at h
  | cons c t ih =>
    by_cases hc : c = ':'
    · exact ⟨t, by simp [List.dropWhile_cons, hc]⟩
    · have ht : ':' ∈ t := by
        rcases List.mem_cons.mp h with h1 | h2
        · exact absurd h1.symm hc
        · exact h2
      rcases ih ht with ⟨u, hu⟩
      exact ⟨u, by simpa [List.dropWhile_cons, hc] using hu⟩

theorem takeWhile_colon_not_mem (cs : List Char) (h : ':' ∉ cs) :
    cs.takeWhile (fun c => c ≠ ':') = cs := by
  induction cs with
  | nil => simp
  | cons c t ih =>
    have hc : c ≠ ':' := fun he => h (he ▸ List.mem_cons_self c t)
    have ht : ':' ∉ t := fun he => h (List.mem_cons_of_mem c he)
    simp [List.takeWhile_cons, hc, ih ht]
    intro x hx
    exact fun he => ht (he ▸ hx)

theorem jsParseFloat_takeWhile (cs : List Char) :
    jsParseFloat (cs.takeWhile (fun c => c ≠ ':')) = jsParseFloat cs := by
  by_cases h : ':' ∈ cs
  · rcases dropWhile_colon_mem cs h with ⟨t, ht⟩
    conv_rhs => rw [← List.takeWhile_append_dropWhile (p := fun c => c ≠ ':') (l := cs)]
    rw [ht, jsParseFloat_colon]
  · rw [takeWhile_colon_not_mem cs h]

/-- Accumulating fold with a filtered push, as produced by the `forEach` +
`if` + `addNote` pattern of the extraction loop. -/
theorem foldl_push_filter {α β : Type} (p : α → Prop) [DecidablePred p] (g : α → β) :
    ∀ (l : List α) (init : List β),
      l.foldl (fun acc n => if p n then acc ++ [g n] else acc) init =
        init ++ (l.filter (fun n => decide (p n))).map g := by
  intro l
  induction l with
  | nil => intro init; simp
  | cons a t ih =>
    intro init
    by_cases h : p a
    · simp [List.foldl_cons, if_pos h, ih, List.filter_cons, h]
    · simp [List.foldl_cons, if_neg h, ih, List.filter_cons, h]

/-- Accumulating fold with an unconditional push, as produced by the
`forEach` + `addNote` pattern of the merge loop. -/
theorem foldl_push_map {α β : Type} (g : α → β) :
    ∀ (l : List α) (init : List β),
      l.foldl (fun acc n => acc ++ [g n]) init = init ++ l.map g := by
  intro l
  induction l with
  | nil => intro init; simp
  | cons a t ih => intro init; simp [List.foldl_cons, ih]

/-- Track-appending fold of the merge step in closed form. -/
theorem foldl_push_tracks (f : Track → Track) :
    ∀ (l : List Track) (out : Midi),
      l.foldl (fun acc tr => { acc with tracks := acc.tracks ++ [f tr] }) out =
        { out with tracks := out.tracks ++ l.map f } := by
  intro l
  induction l with
  | nil => intro out; simp
  | cons tr t ih => intro out; simp [List.foldl_cons, ih]

/-- The calls performed by the orchestrator loop, in closed form: one call
per unit whose instrument resolution succeeds, in order, regardless of the
contents of the extracted sub-documents. -/
theorem runSections_calls (client : ℕ → Option JVal) (reqI : List String) :
    ∀ (units : List SectionUnit) (out : Midi) (calls : List Call),
      (runSections client reqI units out calls).2 =
        calls ++ units.filterMap (fun u => (resolveInstruments reqI u.sec).map
          (fun insts => Call.mk u.sec.label insts u.midi)) := by
  intro units
  induction units with
  | nil => intro out calls; simp [runSections]
  | cons u rest ih =>
    intro out calls
    rcases hres : resolveInstruments reqI u.sec with _ | insts
    · simp [runSections, hres, ih, List.filterMap_cons]
    · simp [runSections, hres, ih, List.filterMap_cons]

/-- Truthy numeric values pass through the `||` default unchanged. -/
theorem jsOr_num (q : ℚ) (h : q ≠ 0) (dflt : JVal) :
    jsOr (some (JVal.num q)) dflt = JVal.num q := by
  simp [jsOr, jsTruthy, h]

/-! ## Claim theorems -/

/-- Claim C6 (confirmed): `parseTimeToSeconds` follows the specified rule —
with a colon present, the result is 60 times the integer value of the part
left of the first colon plus the decimal value of the part right of it, each
unparsable part contributing 0; otherwise the decimal value of the whole
string, with 0 for an unparsable or empty string.  In particular "1:30"
parses to 90, "15" to 15, "" to 0 and "abc" to 0. -/
theorem c6_time_parsing :
    (∀ s : String, parseTimeToSeconds s = parseTimeClaim s) ∧
    parseTimeToSeconds "1:30" = 90 ∧ parseTimeToSeconds "15" = 15 ∧
    parseTimeToSeconds "" = 0 ∧ parseTimeToSeconds "abc" = 0 := by
  refine ⟨?_, ?_, ?_, ?_, ?_⟩
  · intro s
    unfold parseTimeToSeconds parseTimeClaim
    by_cases hs : s = ""
    · subst hs
      have h0 : ("" : String).data = [] := rfl
      have h1 : jsParseFloat [] = Option.none := rfl
      simp [h0, h1]
    · simp only [if_neg hs]
      by_cases hc : ':' ∈ s.data
      · simp only [if_pos hc]
        rw [splitOnColon_structure s.data hc]
        simp only [List.getD_cons_zero, List.getD_cons_succ]
        rw [splitOnColon_head]
        rw [jsParseFloat_takeWhile]
        ring
      · simp only [if_neg hc]
  · with_unfolding_all decide
  · with_unfolding_all decide
  · with_unfolding_all decide
  · with_unfolding_all decide

/-- Claim C9 (confirmed): when the response text does not parse as JSON at
all, `parseAIResponseToMidi` returns the base document unchanged — no new
track is added and nothing is raised to the caller — and the subsequent
merge step then leaves the shared output document untouched. -/
theorem c9_unparsable_response :
    (∀ baseMidi : Midi, parseAIResponseToMidi Option.none baseMidi = baseMidi) ∧
    (∀ (out : Midi) (s : ℚ),
      mergeSectionResult out s (parseAIResponseToMidi Option.none emptyMidi) = out) :=
  ⟨fun _ => rfl, fun _ _ => rfl⟩

/-- Claim C1 (amended): a note entry whose `midi` and `time` fields are
numeric is admitted with its midi value stored unchanged for EVERY rational
midi value — the parser performs no range check against [0,127], so
out-of-range pitches are neither dropped nor clamped. -/
theorem c1_midi_admitted_unchecked (m t : ℚ) (baseMidi : Midi) :
    parseAIResponseToMidi
      (some (JVal.obj [("instruments", JVal.arr
        [JVal.obj [("name", JVal.str "X"), ("notes", JVal.arr
          [JVal.obj [("midi", JVal.num m), ("time", JVal.num t)]])]])])) baseMidi =
      { baseMidi with tracks := baseMidi.tracks ++
          [{ name := JVal.str "X", instrument := ""
           , notes := [{ midi := m, time := t
                       , duration := JVal.num (1/2), velocity := JVal.num (4/5) }] }] } := by
  with_unfolding_all rfl

/-- Claim C1 counterexample: a response note entry with midi 200 — outside
[0,127] — is admitted into the new track rather than dropped. -/
theorem c1_counterexample :
    (127 : ℚ) < 200 ∧
    (parseAIResponseToMidi (some respC1) emptyMidi).tracks =
      [{ name := JVal.str "X", instrument := ""
       , notes := [{ midi := 200, time := 0
                   , duration := JVal.num (1/2), velocity := JVal.num (4/5) }] }] := by
  constructor
  · norm_num
  · with_unfolding_all rfl

/-- Claim C4 (amended): a missing duration is replaced by 0.5 and a missing
velocity by 0.8; any non-zero numeric supplied duration or velocity — in
particular every valid duration > 0 and every velocity in (0,1] — is
preserved unchanged; but the JavaScript `||` treats the number 0 as missing,
so a supplied velocity 0.0 (and likewise a duration 0) is replaced by its
default instead of being preserved. -/
theorem c4_defaults_and_preservation (m t d v : ℚ) (hd : d ≠ 0) (hv : v ≠ 0) :
    procNote (JVal.obj [("midi", JVal.num m), ("time", JVal.num t)]) =
      Except.ok (some { midi := m, time := t
                      , duration := JVal.num (1/2), velocity := JVal.num (4/5) }) ∧
    procNote (JVal.obj [("midi", JVal.num m), ("time", JVal.num t)
                       , ("duration", JVal.num d), ("velocity", JVal.num v)]) =
      Except.ok (some { midi := m, time := t
                      , duration := JVal.num d, velocity := JVal.num v }) ∧
    procNote (JVal.obj [("midi", JVal.num m), ("time", JVal.num t)
                       , ("duration", JVal.num d), ("velocity", JVal.num 0)]) =
      Except.ok (some { midi := m, time := t
                      , duration := JVal.num d, velocity := JVal.num (4/5) }) ∧
    procNote (JVal.obj [("midi", JVal.num m), ("time", JVal.num t)
                       , ("duration", JVal.num 0), ("velocity", JVal.num v)]) =
      Except.ok (some { midi := m, time := t
                      , duration := JVal.num (1/2), velocity := JVal.num v }) := by
  refine ⟨by with_unfolding_all rfl, ?_, ?_, ?_⟩
  · rw [show procNote (JVal.obj [("midi", JVal.num m), ("time", JVal.num t)
                       , ("duration", JVal.num d), ("velocity", JVal.num v)]) =
        Except.ok (some { midi := m, time := t
                        , duration := jsOr (some (JVal.num d)) (JVal.num (1/2))
                        , velocity := jsOr (some (JVal.num v)) (JVal.num (4/5)) }) from by
      with_unfolding_all rfl]
    rw [jsOr_num d hd, jsOr_num v hv]
  · rw [show procNote (JVal.obj [("midi", JVal.num m), ("time", JVal.num t)
                       , ("duration", JVal.num d), ("velocity", JVal.num 0)]) =
        Except.ok (some { midi := m, time := t
                        , duration := jsOr (some (JVal.num d)) (JVal.num (1/2))
                        , velocity := JVal.num (4/5) }) from by
      with_unfolding_all rfl]
    rw [jsOr_num d hd]
  · rw [show procNote (JVal.obj [("midi", JVal.num m), ("time", JVal.num t)
                       , ("duration", JVal.num 0), ("velocity", JVal.num v)]) =
        Except.ok (some { midi := m, time := t
                        , duration := JVal.num (1/2)
                        , velocity := jsOr (some (JVal.num v)) (JVal.num (4/5)) }) from by
      with_unfolding_all rfl]
    rw [jsOr_num v hv]

/-- Claim C4 witness: the preserved-values conjunct applied at duration 2
and velocity 3/4. -/
theorem c4_witness :
    (2 : ℚ) ≠ 0 ∧ (3/4 : ℚ) ≠ 0 ∧
    procNote (JVal.obj [("midi", JVal.num 60), ("time", JVal.num 0)
                       , ("duration", JVal.num 2), ("velocity", JVal.num (3/4))]) =
      Except.ok (some { midi := 60, time := 0
                      , duration := JVal.num 2, velocity := JVal.num (3/4) }) :=
  ⟨by norm_num, by norm_num,
    (c4_defaults_and_preservation 60 0 2 (3/4) (by norm_num) (by norm_num)).2.1⟩

/-- Claim C4 counterexample: a supplied velocity 0.0 — a valid velocity per
the claim — is not preserved: the created note carries the default 0.8. -/
theorem c4_counterexample :
    (parseAIResponseToMidi (some respC4) emptyMidi).tracks =
      [{ name := JVal.str "X", instrument := ""
       , notes := [{ midi := 60, time := 0
                   , duration := JVal.num 2, velocity := JVal.num (4/5) }] }] ∧
    JVal.num (4/5) ≠ JVal.num 0 := by
  constructor
  · with_unfolding_all rfl
  · intro h
    have : (4/5 : ℚ) = 0 := by injection h
    norm_num at this

/-- Claim C5 (confirmed): the time-range extractor retains exactly the
source notes whose start time lies in [s, e), re-zeroed by subtracting s;
every retained note satisfies 0 ≤ time < e - s and its time plus s equals
the start time of its source note, whose remaining fields are copied
verbatim. -/
theorem c5_extractor_window (doc : Midi) (s e : ℚ) :
    (extractSection doc s e).tracks =
      doc.tracks.map (fun tr =>
        { name := tr.name, instrument := tr.instrument
        , notes := (tr.notes.filter (fun n => decide (s ≤ n.time ∧ n.time < e))).map
            (fun n => { midi := n.midi, time := n.time - s
                      , duration := n.duration, velocity := n.velocity }) }) ∧
    (∀ tr ∈ (extractSection doc s e).tracks, ∀ n ∈ tr.notes,
      0 ≤ n.time ∧ n.time < e - s ∧
      ∃ tr' ∈ doc.tracks, ∃ n' ∈ tr'.notes,
        s ≤ n'.time ∧ n'.time < e ∧ n'.time = n.time + s ∧
        n'.midi = n.midi ∧ n'.duration = n.duration ∧ n'.velocity = n.velocity) := by
  have htr : (extractSection doc s e).tracks =
      doc.tracks.map (fun tr =>
        { name := tr.name, instrument := tr.instrument
        , notes := (tr.notes.filter (fun n => decide (s ≤ n.time ∧ n.time < e))).map
            (fun n => { midi := n.midi, time := n.time - s
                      , duration := n.duration, velocity := n.velocity }) }) := by
    unfold extractSection
    dsimp only
    apply List.map_congr_left
    intro tr _
    unfold extractTrack
    congr 1
    rw [foldl_push_filter (fun n => s ≤ n.time ∧ n.time < e)
      (fun n => { midi := n.midi, time := n.time - s
                , duration := n.duration, velocity := n.velocity : Note }) tr.notes []]
    simp
  refine ⟨htr, ?_⟩
  intro tr htrm n hn
  rw [htr] at htrm
  rcases List.mem_map.mp htrm with ⟨tr0, htr0, rfl⟩
  dsimp only at hn
  rcases List.mem_map.mp hn with ⟨n0, hn0, rfl⟩
  rcases List.mem_filter.mp hn0 with ⟨hn0m, hcond⟩
  have hc : s ≤ n0.time ∧ n0.time < e := of_decide_eq_true hcond
  refine ⟨by simpa using hc.1, by exact sub_lt_sub_right hc.2 s, tr0, htr0, n0, hn0m,
    hc.1, hc.2, by ring, rfl, rfl, rfl⟩

/-- Claim C5 witness: the window [2, 5) over `docC5` retains exactly the
note that starts at 2 seconds, re-zeroed to time 0. -/
theorem c5_witness :
    0 ≤ (0 : ℚ) ∧ (0 : ℚ) < 5 - 2 ∧
    ∃ tr' ∈ docC5.tracks, ∃ n' ∈ tr'.notes,
      2 ≤ n'.time ∧ n'.time < 5 ∧ n'.time = 0 + 2 ∧
      n'.midi = (62 : ℚ) ∧ n'.duration = JVal.num 1 ∧ n'.velocity = JVal.num 1 := by
  have h := (c5_extractor_window docC5 2 5).2
  have hmem : ({ name := JVal.str "Piano", instrument := "piano"
               , notes := [{ midi := 62, time := 0, duration := JVal.num 1
                           , velocity := JVal.num 1 }] } : Track) ∈
      (extractSection docC5 2 5).tracks := by
    rw [show (extractSection docC5 2 5).tracks =
        [{ name := JVal.str "Piano", instrument := "piano"
         , notes := [{ midi := 62, time := 0, duration := JVal.num 1
                     , velocity := JVal.num 1 }] }] from by with_unfolding_all rfl]
    exact List.mem_singleton.mpr rfl
  exact h _ hmem _ (List.mem_singleton.mpr rfl)

/-- Claim C7 (confirmed): the merging step appends every track of the
section result with all note times offset by the section start — a note
parsed at time t lands at t + s in the shared output document; in
particular a section starting at "30" whose response note has time 2
appears in the final output at time 32. -/
theorem c7_merge_offset :
    (∀ (out : Midi) (s : ℚ) (res : Midi),
      mergeSectionResult out s res =
        { out with tracks := out.tracks ++ res.tracks.map (fun tr =>
            { name := tr.name, instrument := tr.instrument
            , notes := tr.notes.map (fun n =>
                { midi := n.midi, time := n.time + s
                , duration := n.duration, velocity := n.velocity }) }) }) ∧
    composeWithAI (fun _ => some respC7) (some "k") reqC7 emptyMidi =
      Except.ok
        ({ tempo := Option.none, timeSig := Option.none
         , tracks := [{ name := JVal.str "Lead", instrument := ""
                      , notes := [{ midi := 60, time := 32
                                  , duration := JVal.num (1/2)
                                  , velocity := JVal.num (4/5) }] }] }
        , [{ label := "Verse", instruments := ["bass"]
           , doc := { tempo := some 120, timeSig := Option.none, tracks := [] } }]) := by
  constructor
  · intro out s res
    unfold mergeSectionResult
    rw [foldl_push_tracks (mergeTrack s)]
    congr 1
    congr 1
    apply List.map_congr_left
    intro tr _
    unfold mergeTrack
    congr 1
    rw [foldl_push_map (fun n => { midi := n.midi, time := n.time + s
                                 , duration := n.duration, velocity := n.velocity : Note })
      tr.notes []]
    simp
  · with_unfolding_all rfl

/-- Claim C3 (amended): mode `none` skips; mode `manual` with an empty
explicit list skips; mode `manual` with a non-empty explicit list yields
that list; mode `all` yields the request's full list only when BOTH the
section's own instrument list and the request list are non-empty — the
leading `section.instruments.length === 0` check skips every section whose
own list is empty, including mode `all`; and the calls performed by the
orchestrator loop are exactly the successfully resolved units, in order. -/
theorem c3_instrument_resolution :
    (∀ (req : List String) (s : SectionConfig),
        s.mode = Mode.none → resolveInstruments req s = Option.none) ∧
    (∀ (req : List String) (s : SectionConfig),
        s.mode = Mode.manual → s.instruments = [] →
        resolveInstruments req s = Option.none) ∧
    (∀ (req : List String) (s : SectionConfig),
        s.mode = Mode.manual → s.instruments ≠ [] →
        resolveInstruments req s = some s.instruments) ∧
    (∀ (req : List String) (s : SectionConfig),
        s.mode = Mode.all → s.instruments ≠ [] → req ≠ [] →
        resolveInstruments req s = some req) ∧
    (∀ (req : List String) (s : SectionConfig),
        s.instruments = [] → resolveInstruments req s = Option.none) ∧
    (∀ (client : ℕ → Option JVal) (req : List String) (units : List SectionUnit)
        (out : Midi) (calls : List Call),
      (runSections client req units out calls).2 =
        calls ++ units.filterMap (fun u => (resolveInstruments req u.sec).map
          (fun insts => Call.mk u.sec.label insts u.midi))) := by
  refine ⟨?_, ?_, ?_, ?_, ?_, ?_⟩
  · intro req s h; simp [resolveInstruments, h]
  · intro req s h h2; simp [resolveInstruments, h, h2]
  · intro req s h h2; simp [resolveInstruments, h, h2]
  · intro req s h h2 h3; simp [resolveInstruments, h, h2, h3]
  · intro req s h; simp [resolveInstruments, h]
  · exact fun client req => runSections_calls client req

/-- Claim C3 witness: the resolution facts applied to concrete sections of
each kind. -/
theorem c3_witness :
    resolveInstruments ["bass"] secC3none = Option.none ∧
    resolveInstruments ["bass"] secC3manualEmpty = Option.none ∧
    resolveInstruments ["bass"] secC3manual = some ["drums"] ∧
    resolveInstruments ["bass"] secC3all = some ["bass"] ∧
    resolveInstruments ["bass"] secC3 = Option.none :=
  ⟨c3_instrument_resolution.1 ["bass"] secC3none rfl,
   c3_instrument_resolution.2.1 ["bass"] secC3manualEmpty rfl rfl,
   c3_instrument_resolution.2.2.1 ["bass"] secC3manual rfl (by simp [secC3manual]),
   c3_instrument_resolution.2.2.2.1 ["bass"] secC3all rfl (by simp [secC3all]) (by simp),
   c3_instrument_resolution.2.2.2.2.1 ["bass"] secC3 rfl⟩

/-- Claim C3 counterexample: a mode-`all` section whose own instrument list
is empty is skipped with no generative call even though the request's
instrument list is non-empty — the claim said such a unit is always
processed. -/
theorem c3_counterexample :
    reqC3.instruments = ["bass"] ∧ secC3.mode = Mode.all ∧
    composeWithAI (fun _ => some respC7) (some "k") reqC3 emptyMidi =
      Except.ok (emptyMidi, []) :=
  ⟨rfl, rfl, by with_unfolding_all rfl⟩

/-- Claim C2 (amended): a unit whose extracted sub-document holds no notes
is NOT skipped — whenever instrument resolution succeeds, the summary is
rendered and the generative call is made for it like for any other unit;
skipping is decided by instrument resolution alone. -/
theorem c2_empty_section_not_skipped
    (client : ℕ → Option JVal) (reqI : List String)
    (u : SectionUnit) (rest : List SectionUnit) (out : Midi) (calls : List Call)
    (insts : List String)
    (_hempty : ∀ tr ∈ u.midi.tracks, tr.notes = [])
    (hres : resolveInstruments reqI u.sec = some insts) :
    Call.mk u.sec.label insts u.midi ∈ (runSections client reqI (u :: rest) out calls).2 := by
  rw [runSections_calls client reqI (u :: rest) out calls, List.filterMap_cons, hres]
  simp

/-- Claim C2 witness: the unit extracted for `secC2` from the empty source
document has no notes, yet its call is performed. -/
theorem c2_witness :
    Call.mk secC2.label ["bass"] unitC2.midi ∈
      (runSections (fun _ => Option.none) ["bass"] [unitC2] emptyMidi []).2 :=
  c2_empty_section_not_skipped (fun _ => Option.none) ["bass"] unitC2 [] emptyMidi []
    ["bass"]
    (fun tr htr => absurd (show tr ∈ ([] : List Track) from htr) (List.not_mem_nil tr))
    (by with_unfolding_all rfl)

/-- Claim C2 counterexample: with an empty source document the section's
time window yields no notes, yet `composeWithAI` still performs one
generative call for that unit — the claim said it is skipped silently. -/
theorem c2_counterexample :
    (extractSection emptyMidi 0 10).tracks = [] ∧
    composeWithAI (fun _ => Option.none) (some "k") reqC2 emptyMidi =
      Except.ok (emptyMidi,
        [{ label := "Intro", instruments := ["bass"]
         , doc := { tempo := some 120, timeSig := Option.none, tracks := [] } }]) :=
  ⟨rfl, by with_unfolding_all rfl⟩

/-- Claim C10 (confirmed): when at least one section carries a non-empty
start or end time string, exactly the sections passing the time filter are
extracted and looped over — a section with both time strings empty is not in
the filtered list, so it is never extracted, never summarized and never
called, regardless of mode or instrument list. -/
theorem c10_timed_sections_only (client : ℕ → Option JVal) (key : String)
    (req : CompositionRequest) (doc : Midi) (hkey : key ≠ "")
    (hex : ∃ s ∈ req.sections, hasTime s = true) :
    (∀ s ∈ req.sections, s.startTime = "" → s.endTime = "" →
        s ∉ req.sections.filter hasTime) ∧
    composeWithAI client (some key) req doc =
      Except.ok (runSections client req.instruments
        (extractMidiSections doc (req.sections.filter hasTime)) doc []) ∧
    (composeWithAI client (some key) req doc).map (fun p => p.2) =
      Except.ok ((extractMidiSections doc (req.sections.filter hasTime)).filterMap
        (fun u => (resolveInstruments req.instruments u.sec).map
          (fun insts => Call.mk u.sec.label insts u.midi))) := by
  have hb : composeWithAI client (some key) req doc =
      Except.ok (runSections client req.instruments
        (extractMidiSections doc (req.sections.filter hasTime)) doc []) := by
    unfold composeWithAI
    rcases hex with ⟨s, hs, hts⟩
    have hmem : s ∈ req.sections.filter hasTime := List.mem_filter.mpr ⟨hs, hts⟩
    have hlen : (req.sections.filter hasTime).length > 0 :=
      List.length_pos.mpr (List.ne_nil_of_mem hmem)
    rw [if_neg (by simpa using hkey), if_pos hlen]
  refine ⟨?_, hb, ?_⟩
  · intro s hs h1 h2 hmem
    have := (List.mem_filter.mp hmem).2
    simp [hasTime, h1, h2] at this
  · rw [hb]
    simp only [Except.map]
    rw [runSections_calls]
    simp

/-- Claim C10 witness: in a request holding one timed and one untimed
section, the untimed one is excluded from the processed units. -/
theorem c10_witness :
    secUntimedC10 ∉ (reqC10.sections.filter hasTime) ∧
    composeWithAI (fun _ => Option.none) (some "k") reqC10 emptyMidi =
      Except.ok (runSections (fun _ => Option.none) reqC10.instruments
        (extractMidiSections emptyMidi (reqC10.sections.filter hasTime)) emptyMidi []) := by
  have h := c10_timed_sections_only (fun _ => Option.none) "k" reqC10 emptyMidi
    (by decide) ⟨secTimedC10, by simp [reqC10], by decide⟩
  exact ⟨h.1 secUntimedC10 (by simp [reqC10]) rfl rfl, h.2.1⟩

/-- Claim C8 (amended): a note entry that is not JSON `null` never throws:
an object entry without numeric `midi` (or `time`) is rejected alone, a
rejected entry drops only itself and an admitted entry adds only itself, so
one bad non-null note among nine valid ones yields exactly nine notes; but a
`null` note entry throws a `TypeError` on the `note.midi` access which
aborts the remainder of the whole response, keeping only what was already
admitted. -/
theorem c8_leniency :
    (∀ note : JVal, note ≠ JVal.null → ∃ r, procNote note = Except.ok r) ∧
    (∀ fs : List (String × JVal),
        (∀ q : ℚ, lookupField fs "midi" ≠ some (JVal.num q)) →
        procNote (JVal.obj fs) = Except.ok Option.none) ∧
    (∀ fs : List (String × JVal),
        (∀ q : ℚ, lookupField fs "time" ≠ some (JVal.num q)) →
        procNote (JVal.obj fs) = Except.ok Option.none) ∧
    (∀ (note : JVal) (rest : List JVal) (acc : List Note),
        procNote note = Except.ok Option.none →
        procNotes (note :: rest) acc = procNotes rest acc) ∧
    (∀ (note : JVal) (nt : Note) (rest : List JVal) (acc : List Note),
        procNote note = Except.ok (some nt) →
        procNotes (note :: rest) acc = procNotes rest (acc ++ [nt])) ∧
    (∀ (rest : List JVal) (acc : List Note),
        procNotes (JVal.null :: rest) acc = (acc, true)) ∧
    (procNotes notesC8 []).1.length = 9 ∧ (procNotes notesC8 []).2 = false := by
  refine ⟨?_, ?_, ?_, ?_, ?_, ?_, ?_, ?_⟩
  · intro note hne
    cases note with
    | null => exact absurd rfl hne
    | bool b => exact ⟨Option.none, rfl⟩
    | num q => exact ⟨Option.none, rfl⟩
    | str s => exact ⟨Option.none, rfl⟩
    | arr l => exact ⟨Option.none, rfl⟩
    | obj fs =>
      rcases hm : lookupField fs "midi" with _ | mv
      · exact ⟨Option.none, by simp [procNote, jsGet, hm]⟩
      · cases mv with
        | num mq =>
          rcases ht : lookupField fs "time" with _ | tv
          · exact ⟨Option.none, by simp [procNote, jsGet, hm, ht]⟩
          · cases tv with
            | num tq =>
              refine ⟨some { midi := mq, time := tq
                           , duration := jsOr (lookupField fs "duration") (JVal.num (1/2))
                           , velocity := jsOr (lookupField fs "velocity") (JVal.num (4/5)) }, ?_⟩
              simp [procNote, jsGet, hm, ht]
            | null => exact ⟨Option.none, by simp [procNote, jsGet, hm, ht]⟩
            | bool b => exact ⟨Option.none, by simp [procNote, jsGet, hm, ht]⟩
            | str s => exact ⟨Option.none, by simp [procNote, jsGet, hm, ht]⟩
            | arr l => exact ⟨Option.none, by simp [procNote, jsGet, hm, ht]⟩
            | obj fs2 => exact ⟨Option.none, by simp [procNote, jsGet, hm, ht]⟩
        | null => exact ⟨Option.none, by simp [procNote, jsGet, hm]⟩
        | bool b => exact ⟨Option.none, by simp [procNote, jsGet, hm]⟩
        | str s => exact ⟨Option.none, by simp [procNote, jsGet, hm]⟩
        | arr l => exact ⟨Option.none, by simp [procNote, jsGet, hm]⟩
        | obj fs2 => exact ⟨Option.none, by simp [procNote, jsGet, hm]⟩
  · intro fs hq
    rcases hm : lookupField fs "midi" with _ | mv
    · simp [procNote, jsGet, hm]
    · cases mv with
      | num mq => exact absurd hm (hq mq)
      | null => simp [procNote, jsGet, hm]
      | bool b => simp [procNote, jsGet, hm]
      | str s => simp [procNote, jsGet, hm]
      | arr l => simp [procNote, jsGet, hm]
      | obj fs2 => simp [procNote, jsGet, hm]
  · intro fs hq
    rcases hm : lookupField fs "midi" with _ | mv
    · simp [procNote, jsGet, hm]
    · cases mv with
      | num mq =>
        rcases ht : lookupField fs "time" with _ | tv
        · simp [procNote, jsGet, hm, ht]
        · cases tv with
          | num tq => exact absurd ht (hq tq)
          | null => simp [procNote, jsGet, hm, ht]
          | bool b => simp [procNote, jsGet, hm, ht]
          | str s => simp [procNote, jsGet, hm, ht]
          | arr l => simp [procNote, jsGet, hm, ht]
          | obj fs2 => simp [procNote, jsGet, hm, ht]
      | null => simp [procNote, jsGet, hm]
      | bool b => simp [procNote, jsGet, hm]
      | str s => simp [procNote, jsGet, hm]
      | arr l => simp [procNote, jsGet, hm]
      | obj fs2 => simp [procNote, jsGet, hm]
  · intro note rest acc h
    simp [procNotes, h]
  · intro note nt rest acc h
    simp [procNotes, h]
  · intro rest acc
    rfl
  · with_unfolding_all rfl
  · with_unfolding_all rfl

/-- Claim C8 witness: a note entry with a string midi field drops only
itself, and the following valid entry is processed normally. -/
theorem c8_witness :
    procNotes [badNoteC8, goodNoteC8] [] = procNotes [goodNoteC8] [] ∧
    (∃ r, procNote goodNoteC8 = Except.ok r) :=
  ⟨c8_leniency.2.2.2.1 badNoteC8 [goodNoteC8] [] rfl,
   c8_leniency.1 goodNoteC8 (fun h => JVal.noConfusion h)⟩

/-- Claim C8 counterexample: a response whose first instrument's note list
is `[null, valid]` and whose second instrument is entirely valid yields a
single track with zero notes — the `null` entry aborts the valid note after
it and the whole second instrument, contradicting "an invalid note entry
drops only itself, never the rest of the response". -/
theorem c8_counterexample :
    parseAIResponseToMidi (some respC8) emptyMidi =
      { tempo := Option.none, timeSig := Option.none
      , tracks := [{ name := JVal.str "X", instrument := "", notes := [] }] } := by
  with_unfolding_all rfl

end Producify
